import Mathlib

/-!
Verification of prysmbot: command grammar, registry lookup and dispatch.

A shallow embedding of `src/main.go` (`messageCreate`, `helpOkayChannel`,
`whitelistedChannel`) and `src/block.go` (`getBlockCommandResult`).

Go strings are modelled as lists of characters. The separators the code uses
(`!`, `.`, `,` and the space) are single ASCII bytes, so splitting and slicing
at them gives the same substrings over bytes and over characters.

Effects (messages sent, handlers called, backend requests, process exit) are
recorded as a list of events in program order.
-/

namespace Prysmbot

/-- A Go string. -/
abbrev Str := List Char

/-! ## The Go library functions used by the source -/

/-- Go `unicode.IsSpace`: the Latin-1 white space characters
`\t \n \v \f \r`, space, U+0085, U+00A0, and the other code points with the
Unicode White_Space property. -/
def isSpace (c : Char) : Bool :=
  let n := c.toNat
  n = 0x09 || n = 0x0A || n = 0x0B || n = 0x0C || n = 0x0D || n = 0x20 ||
  n = 0x85 || n = 0xA0 || n = 0x1680 || (0x2000 ≤ n && n ≤ 0x200A) ||
  n = 0x2028 || n = 0x2029 || n = 0x202F || n = 0x205F || n = 0x3000

/-- Go `strings.TrimSpace`: leading and trailing white space removed. -/
def TrimSpace (s : Str) : Str :=
  ((s.dropWhile isSpace).reverse.dropWhile isSpace).reverse

/-- Go `strings.Split(s, sep)` for a one-character separator: every substring
between separators, in order; a string without separator gives `[s]`. -/
def Split (s : Str) (sep : Char) : List Str :=
  match s with
  | [] => [[]]
  | c :: cs =>
    if c = sep then [] :: Split cs sep
    else
      match Split cs sep with
      | [] => [[c]]
      | p :: ps => (c :: p) :: ps

/-- Go `strings.Index(s, sep)` for a one-character separator: the position of
its first occurrence, or `-1`. -/
def Index (s : Str) (sep : Char) : Int :=
  match s with
  | [] => -1
  | c :: cs =>
    if c = sep then 0
    else
      let i := Index cs sep
      if i = -1 then -1 else i + 1

/-- Go `strings.HasPrefix`. -/
def HasPrefix (s p : Str) : Bool := p.isPrefixOf s

/-- Value of a decimal digit. -/
def digitVal (c : Char) : Option Nat :=
  if 48 ≤ c.toNat ∧ c.toNat ≤ 57 then some (c.toNat - 48) else none

/-- Decimal digits read left to right onto an accumulator. -/
def parseDigits (s : Str) (acc : Nat) : Option Nat :=
  match s with
  | [] => some acc
  | c :: cs =>
    match digitVal c with
    | none => none
    | some d => parseDigits cs (acc * 10 + d)

/-- Go `strconv.Atoi` on a 64-bit platform: an optional sign, then at least
one decimal digit and nothing else; `none` stands for a non-nil error (syntax
or out of the `int` range). -/
def Atoi (s : Str) : Option Int :=
  let signed : Bool × Str :=
    match s with
    | '-' :: r => (true, r)
    | '+' :: r => (false, r)
    | _ => (false, s)
  if signed.2 = [] then none
  else
    match parseDigits signed.2 0 with
    | none => none
    | some n =>
      let v : Int := if signed.1 then -(n : Int) else (n : Int)
      if v < -(2 ^ 63 : Int) ∨ (2 ^ 63 : Int) - 1 < v then none else some v

/-! ## Data model -/

/-- The fields of `botCommand` the source reads. -/
structure botCommand where
  command : Str
  shorthand : Str
  responseText : Str
deriving DecidableEq

/-- The fields of `botCommandGroup` the source reads. -/
structure botCommandGroup where
  name : Str
  shorthand : Str
  commands : List botCommand
deriving DecidableEq

/-- The block fields `getBlockCommandResult` reads from the first container of
a `ListBlocks` response. -/
structure BeaconBlock where
  Graffiti : List Nat
  ProposerIndex : Nat
deriving DecidableEq

/-- An argument of `fmt.Sprintf`. -/
inductive FmtArg where
  | int (v : Int)
  | uint (v : Nat)
  | bytes (b : List Nat)
deriving DecidableEq

/-- An embed handed to `ChannelMessageSendEmbed`. -/
inductive Embed where
  | full
  | specific (reqGroup : Option botCommandGroup)
deriving DecidableEq

/-- How a handler call ends: it returns a string, or the process ends. -/
inductive Outcome where
  | ret (result : Str)
  | exit (code : Nat)
  | panic
deriving DecidableEq

/-- An observable step of `messageCreate`. -/
inductive Event where
  | logError
  | print (b : List Nat)
  | send (channelID : Str) (text : Str)
  | sendEmbed (channelID : Str) (embed : Embed)
  | callHead (command : Str)
  | callState (command : Str) (parameters : List Str)
  | callValidator (command : Str) (parameters : List Str)
  | callBlock (command : Str) (parameters : List Str)
  | listBlocks (slot : Nat)
  | exit (code : Nat)
  | panic
deriving DecidableEq

/-- What `messageCreate` reads of a `discordgo.MessageCreate`. -/
structure Message where
  ChannelID : Str
  AuthorID : Str
  Content : Str

/-- The package-level values and collaborators the two source files use but do
not define: the registry, the four groups of the dispatch switch, the two block
commands, the handlers of the other groups, the random-command helpers, the
backend, `fmt.Sprintf`, and whether a send reports an error. -/
structure Env where
  allFlagGroups : List botCommandGroup
  currentCommandGroup : botCommandGroup
  stateCommandGroup : botCommandGroup
  valCommandGroup : botCommandGroup
  blockCommandGroup : botCommandGroup
  blockGraffiti : botCommand
  blockProposer : botCommand
  isRandomCommand : Str → Bool
  getRandomResult : Str → Str
  getHeadCommandResult : Str → Outcome
  getStateCommandResult : Str → List Str → Outcome
  getValidatorCommandResult : Str → List Str → Outcome
  ListBlocks : Nat → Option (List BeaconBlock)
  Sprintf : Str → List FmtArg → Str
  sendErr : Str → Str → Bool
  sendEmbedErr : Str → Embed → Bool

/-! ## `src/block.go` -/

/-- The `switch command` at the end of `getBlockCommandResult`. -/
def blockReply (env : Env) (command : Str) (reqSlot : Int) (block : BeaconBlock) :
    List Event × Outcome :=
  if command = env.blockGraffiti.command ∨ command = env.blockGraffiti.shorthand then
    if block.Graffiti = List.replicate 32 0 then
      ([], Outcome.ret (env.Sprintf "Graffiti for block %d is empty".toList [FmtArg.int reqSlot]))
    else
      ([Event.print block.Graffiti],
        Outcome.ret (env.Sprintf env.blockGraffiti.responseText
          [FmtArg.int reqSlot, FmtArg.bytes block.Graffiti]))
  else if command = env.blockProposer.command ∨ command = env.blockProposer.shorthand then
    ([], Outcome.ret (env.Sprintf env.blockProposer.responseText
      [FmtArg.int reqSlot, FmtArg.uint block.ProposerIndex]))
  else ([], Outcome.ret [])

/-- The body of `getBlockCommandResult` after the arity check. -/
def blockQuery (env : Env) (command : Str) (parameters : List Str) : List Event × Outcome :=
  match parameters with
  | [] => ([], Outcome.panic)
  | p0 :: _ =>
    match Atoi p0 with
    | none => ([Event.logError], Outcome.exit 1)
    | some reqSlot =>
      let slot : Nat := (reqSlot % (2 ^ 64 : Int)).toNat
      match env.ListBlocks slot with
      | none => ([Event.listBlocks slot, Event.logError], Outcome.exit 1)
      | some containers =>
        match containers with
        | [] =>
          ([Event.listBlocks slot],
            Outcome.ret (env.Sprintf "No block found for slot %d".toList [FmtArg.int reqSlot]))
        | block :: _ =>
          let r := blockReply env command reqSlot block
          (Event.listBlocks slot :: r.1, r.2)

/-- Go `getBlockCommandResult`: the events of the call and how it ends. -/
def getBlockCommandResult (env : Env) (command : Str) (parameters : List Str) :
    List Event × Outcome :=
  let logged : List Event := if parameters.length ≠ 1 then [Event.logError] else []
  let r := blockQuery env command parameters
  (logged ++ r.1, r.2)

/-! ## `src/main.go` -/

/-- Go `helpOkayChannel`. -/
def helpOkayChannel (channelID : Str) : Bool :=
  if channelID = "691473296696410164".toList then true
  else if channelID = "701148358445760573".toList then true
  else if channelID = "696886109589995521".toList then true
  else false

/-- Go `whitelistedChannel`. -/
def whitelistedChannel (channelID : Str) : Bool :=
  if channelID = "476588476393848832".toList then true
  else helpOkayChannel channelID

/-- The tokens of one invocation: `commandGroup`, `command`, `parameters`. -/
structure Invocation where
  commandGroup : Str
  command : Str
  parameters : List Str
deriving DecidableEq

/-- Lines 119-129 of `messageCreate`: the command token and the parameters of
the command segment `splitCommand[1]`. -/
def parseSegment (segment : Str) : Str × List Str :=
  let endOfCommand := Index segment ' '
  if endOfCommand = -1 then (segment.take segment.length, [])
  else
    (segment.take endOfCommand.toNat,
      (Split (segment.drop endOfCommand.toNat) ',').map TrimSpace)

/-- Lines 112-129 of `messageCreate`, on `fullCommand`; `none` is the early
return. The index `1` is in range whenever it is read
(`Split_length_of_ne_head`). -/
def tokenizeCommand (fullCommand : Str) : Option Invocation :=
  let splitCommand := Split fullCommand '.'
  if fullCommand = splitCommand.getD 0 [] then none
  else if splitCommand.length > 1 ∧ TrimSpace (splitCommand.getD 1 []) = [] then none
  else
    let r := parseSegment (splitCommand.getD 1 [])
    some { commandGroup := splitCommand.getD 0 [], command := r.1, parameters := r.2 }

/-- The sentinel check of line 81, the strip of line 85 and the tokenizing
section: the spec's `tokenize`, with `none` for NotACommand. -/
def tokenize (content : Str) : Option Invocation :=
  if !HasPrefix content "!".toList then none
  else tokenizeCommand (content.drop 1)

/-- The three variables set by the lookup loop. -/
structure Resolution where
  cmdFound : Bool
  cmdGroupFound : Bool
  reqGroup : Option botCommandGroup
deriving DecidableEq

/-- The inner loop of lines 138-142. -/
def scanCommands (commands : List botCommand) (command : Str) (cmdFound : Bool) : Bool :=
  commands.foldl
    (fun found cmd =>
      if command = cmd.command ∨ command = cmd.shorthand ∨ command = "help".toList then true
      else found)
    cmdFound

/-- One iteration of the outer loop of lines 134-144. -/
def resolveStep (commandGroup command : Str) (r : Resolution) (flagGroup : botCommandGroup) :
    Resolution :=
  if flagGroup.name = commandGroup ∨ flagGroup.shorthand = commandGroup then
    { cmdGroupFound := true, reqGroup := some flagGroup,
      cmdFound := scanCommands flagGroup.commands command r.cmdFound }
  else r

/-- Lines 131-144 of `messageCreate`: the loop over `allFlagGroups`. -/
def resolve (allFlagGroups : List botCommandGroup) (commandGroup command : Str) : Resolution :=
  allFlagGroups.foldl (resolveStep commandGroup command)
    { cmdFound := false, cmdGroupFound := false, reqGroup := none }

/-- The case the `switch commandGroup` of lines 159-170 selects. -/
inductive Handler where
  | head
  | state
  | validator
  | block
  | default
deriving DecidableEq

/-- Case selection of the dispatch switch: cases are tried top to bottom. -/
def selectHandler (env : Env) (commandGroup : Str) : Handler :=
  if commandGroup = env.currentCommandGroup.name ∨
      commandGroup = env.currentCommandGroup.shorthand then Handler.head
  else if commandGroup = env.stateCommandGroup.name ∨
      commandGroup = env.stateCommandGroup.shorthand then Handler.state
  else if commandGroup = env.valCommandGroup.name ∨
      commandGroup = env.valCommandGroup.shorthand then Handler.validator
  else if commandGroup = env.blockCommandGroup.name ∨
      commandGroup = env.blockCommandGroup.shorthand then Handler.block
  else Handler.default

/-- The body of the selected case: the events of the handler call and the
value assigned to `result` (or the end of the process). -/
def callHandler (env : Env) (commandGroup command : Str) (parameters : List Str) :
    List Event × Outcome :=
  match selectHandler env commandGroup with
  | Handler.head => ([Event.callHead command], env.getHeadCommandResult command)
  | Handler.state =>
    ([Event.callState command parameters], env.getStateCommandResult command parameters)
  | Handler.validator =>
    ([Event.callValidator command parameters], env.getValidatorCommandResult command parameters)
  | Handler.block =>
    let r := getBlockCommandResult env command parameters
    (Event.callBlock command parameters :: r.1, r.2)
  | Handler.default => ([], Outcome.ret "Command not found, sorry!".toList)

/-- Lines 158-178 of `messageCreate`: the switch and the send of `result`. -/
def dispatch (env : Env) (channelID : Str) (inv : Invocation) : List Event :=
  let r := callHandler env inv.commandGroup inv.command inv.parameters
  match r.2 with
  | Outcome.ret result =>
    if result = [] then r.1
    else
      r.1 ++ Event.send channelID result ::
        (if env.sendErr channelID result then [Event.logError] else [])
  | Outcome.exit code => r.1 ++ [Event.exit code]
  | Outcome.panic => r.1 ++ [Event.panic]

/-- Lines 131-178 of `messageCreate`: lookup, help gate and dispatch of a
tokenized invocation. -/
def runInvocation (env : Env) (channelID : Str) (inv : Invocation) : List Event :=
  let r := resolve env.allFlagGroups inv.commandGroup inv.command
  if !r.cmdGroupFound || !r.cmdFound then []
  else if inv.command = "help".toList ∧ helpOkayChannel channelID = true then
    Event.sendEmbed channelID (Embed.specific r.reqGroup) ::
      (if env.sendEmbedErr channelID (Embed.specific r.reqGroup) then [Event.logError] else [])
  else dispatch env channelID inv

/-- Lines 103-110 of `messageCreate`: the events of the random-command block
and whether it returned. -/
def randomStage (env : Env) (channelID fullCommand : Str) : List Event × Bool :=
  if env.isRandomCommand fullCommand then
    let result := env.getRandomResult fullCommand
    if env.sendErr channelID result then ([Event.send channelID result, Event.logError], true)
    else ([Event.send channelID result], false)
  else ([], false)

/-- Go `messageCreate`; `selfID` is `s.State.User.ID`. -/
def messageCreate (env : Env) (selfID : Str) (m : Message) : List Event :=
  if !whitelistedChannel m.ChannelID then []
  else if m.AuthorID = selfID then []
  else if !HasPrefix m.Content "!".toList then []
  else
    let fullCommand := m.Content.drop 1
    if fullCommand = "ping".toList then
      Event.send m.ChannelID "Pong!".toList ::
        (if env.sendErr m.ChannelID "Pong!".toList then [Event.logError] else [])
    else if fullCommand = "help".toList ∧ helpOkayChannel m.ChannelID = true then
      Event.sendEmbed m.ChannelID Embed.full ::
        (if env.sendEmbedErr m.ChannelID Embed.full then [Event.logError] else [])
    else
      let pre := randomStage env m.ChannelID fullCommand
      if pre.2 then pre.1
      else
        match tokenizeCommand fullCommand with
        | none => pre.1
        | some inv => pre.1 ++ runInvocation env m.ChannelID inv

/-- Whether an event marks the call of a group handler. -/
def Event.isCall (e : Event) : Bool :=
  match e with
  | Event.callHead _ => true
  | Event.callState _ _ => true
  | Event.callValidator _ _ => true
  | Event.callBlock _ _ => true
  | _ => false

/-- The events of a run other than the handler-call markers: log lines,
output, backend requests, messages sent and the end of the process. -/
def withoutCalls (events : List Event) : List Event :=
  events.filter (fun e => !e.isCall)

/-- Two groups share a canonical name or alias. -/
def sharesGroupId (A B : botCommandGroup) : Prop :=
  A.name = B.name ∨ A.name = B.shorthand ∨ A.shorthand = B.name ∨ A.shorthand = B.shorthand

/-- Two commands share a canonical name or alias. -/
def sharesCommandId (A B : botCommand) : Prop :=
  A.command = B.command ∨ A.command = B.shorthand ∨
    A.shorthand = B.command ∨ A.shorthand = B.shorthand

instance (A B : botCommandGroup) : Decidable (sharesGroupId A B) := by
  unfold sharesGroupId
  infer_instance

instance (A B : botCommand) : Decidable (sharesCommandId A B) := by
  unfold sharesCommandId
  infer_instance

/-! ## A concrete registry, used to evaluate the definitions -/

/-- A `graffiti` command with alias `g`. -/
def exGraffiti : botCommand :=
  { command := "graffiti".toList, shorthand := "g".toList,
    responseText := "Graffiti for block %d is %s".toList }

/-- A `proposer` command with alias `p`. -/
def exProposer : botCommand :=
  { command := "proposer".toList, shorthand := "p".toList,
    responseText := "Proposer of block %d is %d".toList }

/-- An `epoch` command with alias `e`. -/
def exEpoch : botCommand :=
  { command := "epoch".toList, shorthand := "e".toList, responseText := "Epoch %d".toList }

/-- Group `current`, alias `c`. -/
def exCurrent : botCommandGroup :=
  { name := "current".toList, shorthand := "c".toList, commands := [exEpoch] }

/-- Group `state`, alias `s`. -/
def exState : botCommandGroup :=
  { name := "state".toList, shorthand := "s".toList, commands := [exEpoch] }

/-- Group `val`, alias `v`. -/
def exVal : botCommandGroup :=
  { name := "val".toList, shorthand := "v".toList, commands := [exEpoch] }

/-- Group `block`, alias `b`, with `graffiti` and `proposer`. -/
def exBlock : botCommandGroup :=
  { name := "block".toList, shorthand := "b".toList, commands := [exGraffiti, exProposer] }

/-- An environment over the registry above: no random commands, handlers of the
absent groups that return the command token, a backend without blocks, a
`Sprintf` that keeps the format string, sends that succeed. -/
def exEnv : Env :=
  { allFlagGroups := [exCurrent, exState, exVal, exBlock]
    currentCommandGroup := exCurrent
    stateCommandGroup := exState
    valCommandGroup := exVal
    blockCommandGroup := exBlock
    blockGraffiti := exGraffiti
    blockProposer := exProposer
    isRandomCommand := fun _ => false
    getRandomResult := fun _ => []
    getHeadCommandResult := fun _ => Outcome.ret []
    getStateCommandResult := fun _ _ => Outcome.ret []
    getValidatorCommandResult := fun _ _ => Outcome.ret []
    ListBlocks := fun _ => some []
    Sprintf := fun format _ => format
    sendErr := fun _ _ => false
    sendEmbedErr := fun _ _ => false }

/-- A `graffiti` command without alias. -/
def exGraffitiNoAlias : botCommand :=
  { command := "graffiti".toList, shorthand := [],
    responseText := "Graffiti for block %d is %s".toList }

/-- Group `block` without alias, holding `graffiti` without alias. -/
def exBlockNoAlias : botCommandGroup :=
  { name := "block".toList, shorthand := [], commands := [exGraffitiNoAlias] }

/-- The environment `exEnv` with the block group and its command stripped of
their aliases. -/
def exNoAliasEnv : Env :=
  { exEnv with
    allFlagGroups := [exCurrent, exState, exVal, exBlockNoAlias]
    blockCommandGroup := exBlockNoAlias
    blockGraffiti := exGraffitiNoAlias }

/-- A block of the backend: graffiti `prysm` padded to 32 bytes, proposer 7. -/
def exBeaconBlock : BeaconBlock :=
  { Graffiti := [112, 114, 121, 115, 109] ++ List.replicate 27 0, ProposerIndex := 7 }

/-- The environment `exEnv` over a backend that has the block `exBeaconBlock`
at every slot. -/
def exBackendEnv : Env :=
  { exEnv with ListBlocks := fun _ => some [exBeaconBlock] }

/-- A `proposer` command without alias. -/
def exProposerNoAlias : botCommand :=
  { command := "proposer".toList, shorthand := [],
    responseText := "Proposer of block %d is %d".toList }

/-- Group `block`, alias `b`, whose two commands have no alias. -/
def exBlockTwoNoAlias : botCommandGroup :=
  { name := "block".toList, shorthand := "b".toList,
    commands := [exGraffitiNoAlias, exProposerNoAlias] }

/-- The environment `exBackendEnv` with the two block commands stripped of
their aliases. -/
def exTwoNoAliasEnv : Env :=
  { exBackendEnv with
    allFlagGroups := [exCurrent, exState, exVal, exBlockTwoNoAlias]
    blockCommandGroup := exBlockTwoNoAlias
    blockGraffiti := exGraffitiNoAlias
    blockProposer := exProposerNoAlias }

/-! ## Lemmas on the library functions -/

theorem Split_cons_sep (cs : Str) (sep : Char) :
    Split (sep :: cs) sep = [] :: Split cs sep := by
  rw [Split]; simp

theorem Split_cons_of_ne (c : Char) (cs : Str) (sep : Char) (h : c ≠ sep) :
    Split (c :: cs) sep =
      (match Split cs sep with
        | [] => [[c]]
        | p :: ps => (c :: p) :: ps) := by
  rw [Split]; simp [h]

theorem Split_ne_nil (s : Str) (sep : Char) : Split s sep ≠ [] := by
  cases s with
  | nil => simp [Split]
  | cons c cs =>
    by_cases hc : c = sep
    · subst hc; simp [Split_cons_sep]
    · rw [Split_cons_of_ne c cs sep hc]
      split <;> simp

theorem Split_of_not_mem (s : Str) (sep : Char) (h : sep ∉ s) : Split s sep = [s] := by
  induction s with
  | nil => simp [Split]
  | cons c cs ih =>
    have hc : c ≠ sep := fun e => h (by simp [e])
    have hcs : sep ∉ cs := fun e => h (by simp [e])
    rw [Split_cons_of_ne c cs sep hc, ih hcs]

theorem Split_append_sep (a b : Str) (sep : Char) (h : sep ∉ a) :
    Split (a ++ sep :: b) sep = a :: Split b sep := by
  induction a with
  | nil => simp [Split_cons_sep]
  | cons c cs ih =>
    have hc : c ≠ sep := fun e => h (by simp [e])
    have hcs : sep ∉ cs := fun e => h (by simp [e])
    rw [List.cons_append, Split_cons_of_ne c _ sep hc, ih hcs]

theorem Split_length (s : Str) (sep : Char) : (Split s sep).length = s.count sep + 1 := by
  induction s with
  | nil => simp [Split]
  | cons c cs ih =>
    by_cases hc : c = sep
    · subst hc
      simp [Split_cons_sep, ih]
    · rw [Split_cons_of_ne c cs sep hc, List.count_cons_of_ne (Ne.symm hc)]
      cases hsp : Split cs sep with
      | nil => exact absurd hsp (Split_ne_nil cs sep)
      | cons p ps =>
        rw [hsp] at ih
        simpa using ih

theorem Index_of_not_mem (s : Str) (sep : Char) (h : sep ∉ s) : Index s sep = -1 := by
  induction s with
  | nil => simp [Index]
  | cons c cs ih =>
    have hc : c ≠ sep := fun e => h (by simp [e])
    have hcs : sep ∉ cs := fun e => h (by simp [e])
    rw [Index]
    simp [hc, ih hcs]

theorem Index_append_sep (a b : Str) (sep : Char) (h : sep ∉ a) :
    Index (a ++ sep :: b) sep = (a.length : Int) := by
  induction a with
  | nil => simp [Index]
  | cons c cs ih =>
    have hc : c ≠ sep := fun e => h (by simp [e])
    have hcs : sep ∉ cs := fun e => h (by simp [e])
    rw [List.cons_append, Index]
    have hne : (cs.length : Int) ≠ -1 := by omega
    simp [hc, ih hcs, hne]

theorem dropWhile_isSpace_eq_nil_iff (s : Str) :
    s.dropWhile isSpace = [] ↔ ∀ c ∈ s, isSpace c = true := by
  induction s with
  | nil => simp
  | cons c cs ih =>
    by_cases hc : isSpace c = true
    · simp [List.dropWhile_cons, hc, ih]
    · simp [List.dropWhile_cons, hc]

theorem TrimSpace_eq_nil_iff (s : Str) : TrimSpace s = [] ↔ ∀ c ∈ s, isSpace c = true := by
  unfold TrimSpace
  rw [List.reverse_eq_nil_iff, dropWhile_isSpace_eq_nil_iff]
  constructor
  · intro h
    rw [← dropWhile_isSpace_eq_nil_iff]
    cases hd : s.dropWhile isSpace with
    | nil => rfl
    | cons x xs =>
      exfalso
      have hx : isSpace x = true := h x (by simp [hd])
      have := List.head_dropWhile_not isSpace s (by simp [hd])
      simp [hd, hx] at this
  · intro h c hc
    have hnil := (dropWhile_isSpace_eq_nil_iff s).2 h
    simp [hnil] at hc

theorem TrimSpace_cons_space (c : Char) (s : Str) (hc : isSpace c = true) :
    TrimSpace (c :: s) = TrimSpace s := by
  unfold TrimSpace
  rw [List.dropWhile_cons_of_pos hc]


/-! ## Lemmas on the tokenizing section -/

theorem isSpace_space : isSpace ' ' = true := by decide

theorem parseSegment_space (c P : Str) (hc : ' ' ∉ c) :
    parseSegment (c ++ ' ' :: P) = (c, (Split P ',').map TrimSpace) := by
  have hi : Index (c ++ ' ' :: P) ' ' = (c.length : Int) := Index_append_sep c P ' ' hc
  have hne : (c.length : Int) ≠ -1 := by omega
  have hsp : (Split (' ' :: P) ',').map TrimSpace = (Split P ',').map TrimSpace := by
    rw [Split_cons_of_ne ' ' P ',' (by decide)]
    cases hP : Split P ',' with
    | nil => exact absurd hP (Split_ne_nil P ',')
    | cons p ps => simp [TrimSpace_cons_space ' ' p isSpace_space]
  unfold parseSegment
  simp only [hi, hne, if_false, Int.toNat_ofNat, List.take_left', List.drop_left', hsp]

theorem parseSegment_no_space (segment : Str) (h : ' ' ∉ segment) :
    parseSegment segment = (segment, []) := by
  unfold parseSegment
  simp [Index_of_not_mem segment ' ' h]

theorem tokenizeCommand_no_dot (r : Str) (h : '.' ∉ r) : tokenizeCommand r = none := by
  unfold tokenizeCommand
  simp [Split_of_not_mem r '.' h]

theorem tokenizeCommand_dot (g rest : Str) (hg : '.' ∉ g) :
    tokenizeCommand (g ++ '.' :: rest) =
      if TrimSpace ((Split rest '.').getD 0 []) = [] then none
      else some
        { commandGroup := g
          command := (parseSegment ((Split rest '.').getD 0 [])).1
          parameters := (parseSegment ((Split rest '.').getD 0 [])).2 } := by
  have hne : g ++ '.' :: rest ≠ g := by
    intro e
    have := congrArg List.length e
    simp at this
  unfold tokenizeCommand
  rw [Split_append_sep g rest '.' hg]
  cases hs : Split rest '.' with
  | nil => exact absurd hs (Split_ne_nil rest '.')
  | cons seg more =>
    simp only [List.getD_cons_zero, List.getD_cons_succ, hne, if_false, List.length_cons]
    by_cases ht : TrimSpace seg = []
    · simp [ht]
    · simp [ht]

theorem tokenize_bang (x : Str) : tokenize ('!' :: x) = tokenizeCommand x := by
  simp [tokenize, HasPrefix]

theorem Split_length_of_ne_head (s : Str) (sep : Char) (h : s ≠ (Split s sep).getD 0 []) :
    1 < (Split s sep).length := by
  by_cases hm : sep ∈ s
  · rw [Split_length]
    have := List.count_pos_iff.2 hm
    omega
  · rw [Split_of_not_mem s sep hm] at h
    simp at h


theorem Split_intercalate (s : Str) (sep : Char) :
    List.intercalate [sep] (Split s sep) = s := by
  induction s with
  | nil => simp [Split, List.intercalate]
  | cons c cs ih =>
    cases hs : Split cs sep with
    | nil => exact absurd hs (Split_ne_nil cs sep)
    | cons p ps =>
      rw [hs] at ih
      by_cases hc : c = sep
      · subst hc
        rw [Split_cons_sep, hs]
        simp only [List.intercalate, List.intersperse, List.flatten] at ih ⊢
        simp [ih]
      · rw [Split_cons_of_ne c cs sep hc, hs]
        cases ps with
        | nil =>
          simp only [List.intercalate, List.intersperse, List.flatten] at ih ⊢
          simpa using ih
        | cons q qs =>
          simp only [List.intercalate, List.intersperse, List.flatten] at ih ⊢
          simpa using ih

theorem not_mem_of_mem_Split (s : Str) (sep : Char) : ∀ p ∈ Split s sep, sep ∉ p := by
  induction s with
  | nil => simp [Split]
  | cons c cs ih =>
    by_cases hc : c = sep
    · subst hc
      rw [Split_cons_sep]
      intro p hp
      rcases List.mem_cons.1 hp with h | h
      · simp [h]
      · exact ih p h
    · rw [Split_cons_of_ne c cs sep hc]
      cases hs : Split cs sep with
      | nil => exact absurd hs (Split_ne_nil cs sep)
      | cons q qs =>
        rw [hs] at ih
        intro p hp
        rcases List.mem_cons.1 hp with h | h
        · subst h
          have hq := ih q (by simp)
          intro hm
          rcases List.mem_cons.1 hm with h1 | h1
          · exact hc h1.symm
          · exact hq h1
        · exact ih p (by simp [h])

theorem mem_randomStage (env : Env) (channelID fullCommand : Str) :
    ∀ x ∈ (randomStage env channelID fullCommand).1,
      x = Event.send channelID (env.getRandomResult fullCommand) ∨ x = Event.logError := by
  intro x hx
  unfold randomStage at hx
  by_cases h1 : env.isRandomCommand fullCommand = true
  · by_cases h2 : env.sendErr channelID (env.getRandomResult fullCommand) = true
    · simp [h1, h2] at hx; tauto
    · simp [h1, h2] at hx; tauto
  · simp [h1] at hx

theorem messageCreate_of_tokenize_none (env : Env) (selfID : Str) (m : Message)
    (h : tokenize m.Content = none) :
    ∀ e ∈ messageCreate env selfID m,
      e = Event.send m.ChannelID "Pong!".toList ∨ e = Event.sendEmbed m.ChannelID Embed.full ∨
      e = Event.send m.ChannelID (env.getRandomResult (m.Content.drop 1)) ∨
      e = Event.logError := by
  intro e he
  unfold messageCreate at he
  unfold tokenize at h
  by_cases h1 : (!whitelistedChannel m.ChannelID) = true
  · rw [if_pos h1] at he; simp at he
  rw [if_neg h1] at he
  by_cases h2 : m.AuthorID = selfID
  · rw [if_pos h2] at he; simp at he
  rw [if_neg h2] at he
  by_cases h3 : (!HasPrefix m.Content "!".toList) = true
  · rw [if_pos h3] at he; simp at he
  rw [if_neg h3] at he
  rw [if_neg h3] at h
  dsimp only at he
  by_cases h4 : m.Content.drop 1 = "ping".toList
  · rw [if_pos h4] at he
    by_cases h5 : env.sendErr m.ChannelID "Pong!".toList = true
    · simp [h5] at he; tauto
    · simp [h5] at he; tauto
  rw [if_neg h4] at he
  by_cases h6 : m.Content.drop 1 = "help".toList ∧ helpOkayChannel m.ChannelID = true
  · rw [if_pos h6] at he
    by_cases h7 : env.sendEmbedErr m.ChannelID Embed.full = true
    · simp [h7] at he; tauto
    · simp [h7] at he; tauto
  rw [if_neg h6, h] at he
  have hr := mem_randomStage env m.ChannelID (m.Content.drop 1)
  by_cases h8 : (randomStage env m.ChannelID (m.Content.drop 1)).2 = true
  · rw [if_pos h8] at he
    rcases hr e he with h9 | h9 <;> simp [h9]
  · rw [if_neg h8] at he
    rcases hr e he with h9 | h9 <;> simp [h9]

/-! ## Lemmas on the lookup loop -/

theorem scanCommands_eq (commands : List botCommand) (command : Str) (b : Bool) :
    scanCommands commands command b =
      (b || commands.any (fun cmd =>
        decide (command = cmd.command ∨ command = cmd.shorthand ∨ command = "help".toList))) := by
  unfold scanCommands
  induction commands generalizing b with
  | nil => simp
  | cons cmd rest ih =>
    rw [List.foldl_cons, ih, List.any_cons]
    by_cases h : command = cmd.command ∨ command = cmd.shorthand ∨ command = "help".toList
    · rw [if_pos h, decide_eq_true h]; simp
    · rw [if_neg h, decide_eq_false h]; simp

theorem foldl_resolveStep_cmdGroupFound (groups : List botCommandGroup) (g c : Str)
    (r : Resolution) :
    (groups.foldl (resolveStep g c) r).cmdGroupFound =
      (r.cmdGroupFound || groups.any (fun G => decide (G.name = g ∨ G.shorthand = g))) := by
  induction groups generalizing r with
  | nil => simp
  | cons G rest ih =>
    rw [List.foldl_cons, ih, List.any_cons]
    unfold resolveStep
    by_cases h : G.name = g ∨ G.shorthand = g
    · rw [if_pos h, decide_eq_true h]; simp
    · rw [if_neg h, decide_eq_false h]; simp

theorem foldl_resolveStep_cmdFound (groups : List botCommandGroup) (g c : Str)
    (r : Resolution) :
    (groups.foldl (resolveStep g c) r).cmdFound =
      (r.cmdFound || groups.any (fun G => decide (G.name = g ∨ G.shorthand = g) &&
        G.commands.any (fun cmd =>
          decide (c = cmd.command ∨ c = cmd.shorthand ∨ c = "help".toList)))) := by
  induction groups generalizing r with
  | nil => simp
  | cons G rest ih =>
    rw [List.foldl_cons, ih, List.any_cons]
    unfold resolveStep
    by_cases h : G.name = g ∨ G.shorthand = g
    · rw [if_pos h, decide_eq_true h]
      simp only [scanCommands_eq, Bool.true_and, Bool.or_assoc]
    · rw [if_neg h, decide_eq_false h]; simp

theorem resolve_cmdGroupFound_iff (groups : List botCommandGroup) (g c : Str) :
    (resolve groups g c).cmdGroupFound = true ↔
      ∃ G ∈ groups, G.name = g ∨ G.shorthand = g := by
  unfold resolve
  rw [foldl_resolveStep_cmdGroupFound]
  simp

theorem resolve_cmdFound_iff (groups : List botCommandGroup) (g c : Str) :
    (resolve groups g c).cmdFound = true ↔
      ∃ G ∈ groups, (G.name = g ∨ G.shorthand = g) ∧
        ∃ cmd ∈ G.commands, c = cmd.command ∨ c = cmd.shorthand ∨ c = "help".toList := by
  unfold resolve
  rw [foldl_resolveStep_cmdFound]
  simp

theorem runInvocation_of_not_found (env : Env) (channelID : Str) (inv : Invocation)
    (h : (resolve env.allFlagGroups inv.commandGroup inv.command).cmdFound = false) :
    runInvocation env channelID inv = [] := by
  unfold runInvocation
  simp [h]

/-! ## Lemmas on the dispatch -/

theorem selectHandler_congr (env : Env) (a b : Str)
    (h1 : (a = env.currentCommandGroup.name ∨ a = env.currentCommandGroup.shorthand) ↔
      (b = env.currentCommandGroup.name ∨ b = env.currentCommandGroup.shorthand))
    (h2 : (a = env.stateCommandGroup.name ∨ a = env.stateCommandGroup.shorthand) ↔
      (b = env.stateCommandGroup.name ∨ b = env.stateCommandGroup.shorthand))
    (h3 : (a = env.valCommandGroup.name ∨ a = env.valCommandGroup.shorthand) ↔
      (b = env.valCommandGroup.name ∨ b = env.valCommandGroup.shorthand))
    (h4 : (a = env.blockCommandGroup.name ∨ a = env.blockCommandGroup.shorthand) ↔
      (b = env.blockCommandGroup.name ∨ b = env.blockCommandGroup.shorthand)) :
    selectHandler env a = selectHandler env b := by
  unfold selectHandler
  simp only [h1, h2, h3, h4]

theorem blockReply_congr (env : Env) (a b : Str) (reqSlot : Int) (block : BeaconBlock)
    (h1 : (a = env.blockGraffiti.command ∨ a = env.blockGraffiti.shorthand) ↔
      (b = env.blockGraffiti.command ∨ b = env.blockGraffiti.shorthand))
    (h2 : ¬ (b = env.blockGraffiti.command ∨ b = env.blockGraffiti.shorthand) →
      ((a = env.blockProposer.command ∨ a = env.blockProposer.shorthand) ↔
        (b = env.blockProposer.command ∨ b = env.blockProposer.shorthand))) :
    blockReply env a reqSlot block = blockReply env b reqSlot block := by
  unfold blockReply
  by_cases hb : b = env.blockGraffiti.command ∨ b = env.blockGraffiti.shorthand
  · rw [if_pos hb, if_pos (h1.2 hb)]
  · rw [if_neg hb, if_neg (fun ha => hb (h1.1 ha))]
    simp only [h2 hb]

theorem getBlockCommandResult_congr (env : Env) (a b : Str) (ps : List Str)
    (h1 : (a = env.blockGraffiti.command ∨ a = env.blockGraffiti.shorthand) ↔
      (b = env.blockGraffiti.command ∨ b = env.blockGraffiti.shorthand))
    (h2 : ¬ (b = env.blockGraffiti.command ∨ b = env.blockGraffiti.shorthand) →
      ((a = env.blockProposer.command ∨ a = env.blockProposer.shorthand) ↔
        (b = env.blockProposer.command ∨ b = env.blockProposer.shorthand))) :
    getBlockCommandResult env a ps = getBlockCommandResult env b ps := by
  have hq : blockQuery env a ps = blockQuery env b ps := by
    unfold blockQuery
    cases ps with
    | nil => rfl
    | cons p0 rest =>
      dsimp only
      cases Atoi p0 with
      | none => rfl
      | some reqSlot =>
        dsimp only
        cases env.ListBlocks (reqSlot % (2 ^ 64 : Int)).toNat with
        | none => rfl
        | some containers =>
          cases containers with
          | nil => rfl
          | cons block more =>
            dsimp only
            rw [blockReply_congr env a b reqSlot block h1 h2]
  unfold getBlockCommandResult
  rw [hq]

theorem withoutCalls_dispatch_congr (env : Env) (channelID : Str) (i j : Invocation)
    (h1 : withoutCalls (callHandler env i.commandGroup i.command i.parameters).1 =
      withoutCalls (callHandler env j.commandGroup j.command j.parameters).1)
    (h2 : (callHandler env i.commandGroup i.command i.parameters).2 =
      (callHandler env j.commandGroup j.command j.parameters).2) :
    withoutCalls (dispatch env channelID i) = withoutCalls (dispatch env channelID j) := by
  unfold dispatch
  dsimp only
  rw [h2]
  cases (callHandler env j.commandGroup j.command j.parameters).2 with
  | ret result =>
    dsimp only
    by_cases hr : result = []
    · rw [if_pos hr, if_pos hr, h1]
    · rw [if_neg hr, if_neg hr]
      unfold withoutCalls at h1 ⊢
      rw [List.filter_append, List.filter_append, h1]
  | exit code =>
    dsimp only
    unfold withoutCalls at h1 ⊢
    rw [List.filter_append, List.filter_append, h1]
  | panic =>
    dsimp only
    unfold withoutCalls at h1 ⊢
    rw [List.filter_append, List.filter_append, h1]

theorem runInvocation_of_found (env : Env) (channelID : Str) (inv : Invocation)
    (hg : (resolve env.allFlagGroups inv.commandGroup inv.command).cmdGroupFound = true)
    (hc : (resolve env.allFlagGroups inv.commandGroup inv.command).cmdFound = true)
    (hh : inv.command ≠ "help".toList) :
    runInvocation env channelID inv = dispatch env channelID inv := by
  unfold runInvocation
  dsimp only
  rw [hg, hc, if_neg (by decide), if_neg (fun h => hh h.1)]

theorem messageCreate_of_tokenize_some (env : Env) (selfID : Str) (m : Message)
    (inv : Invocation) (h : tokenize m.Content = some inv) :
    messageCreate env selfID m =
      if (!whitelistedChannel m.ChannelID) = true ∨ m.AuthorID = selfID then []
      else if (randomStage env m.ChannelID (m.Content.drop 1)).2 = true then
        (randomStage env m.ChannelID (m.Content.drop 1)).1
      else
        (randomStage env m.ChannelID (m.Content.drop 1)).1 ++
          runInvocation env m.ChannelID inv := by
  unfold tokenize at h
  by_cases h3 : (!HasPrefix m.Content "!".toList) = true
  · rw [if_pos h3] at h; simp at h
  rw [if_neg h3] at h
  have hping : tokenizeCommand "ping".toList = none := by decide
  have hhelp : tokenizeCommand "help".toList = none := by decide
  have h4 : m.Content.drop 1 ≠ "ping".toList := by
    intro e; rw [e, hping] at h; cases h
  have h6 : ¬ (m.Content.drop 1 = "help".toList ∧ helpOkayChannel m.ChannelID = true) := by
    rintro ⟨e, -⟩; rw [e, hhelp] at h; cases h
  unfold messageCreate
  by_cases h1 : (!whitelistedChannel m.ChannelID) = true
  · simp [h1]
  by_cases h2 : m.AuthorID = selfID
  · simp [h2]
  rw [if_neg h1, if_neg h2, if_neg h3]
  dsimp only
  rw [if_neg h4, if_neg h6, h]
  rw [if_neg (show ¬ ((!whitelistedChannel m.ChannelID) = true ∨ m.AuthorID = selfID) by tauto)]

/-! ## The claims -/

/-- C1, counterexample: with `g = "g"`, `c` a tab (non-empty, without `.` and
without space) and `P` empty, the message `"!g.\t "` satisfies the hypotheses
of the claim, and the tokenizing section returns early instead of yielding the
command `c`: its command segment is white space only. -/
theorem tokenize_tab_command_counterexample :
    "!g.\t ".toList = '!' :: ("g".toList ++ '.' :: ("\t".toList ++ ' ' :: [])) ∧
    '.' ∉ "g".toList ∧ "\t".toList ≠ [] ∧ '.' ∉ "\t".toList ∧ ' ' ∉ "\t".toList ∧
    tokenize "!g.\t ".toList = none := by
  decide

/-- C1, amended: for every message `"!" ++ g ++ "." ++ c ++ " " ++ P` where `g`
has no `.`, `c` is non-empty and has no `.` and no space, `P` has no `.`, and
`c ++ P` has a character that is not white space, the tokenizing section
yields the group `g`, the command `c` and the parameters obtained by splitting
`P` on `,` and trimming every piece; the list has one entry more than `P` has
commas, the untrimmed pieces joined by `,` give back `P`, and no piece holds a
comma (so empty pieces keep their position). -/
theorem tokenize_group_command_parameters (g c P : Str)
    (hg : '.' ∉ g) (hc : c ≠ []) (hcd : '.' ∉ c) (hcs : ' ' ∉ c) (hP : '.' ∉ P)
    (hns : ∃ ch ∈ c ++ P, isSpace ch = false) :
    tokenize ('!' :: (g ++ '.' :: (c ++ ' ' :: P))) =
      some { commandGroup := g, command := c, parameters := (Split P ',').map TrimSpace } ∧
    ((Split P ',').map TrimSpace).length = P.count ',' + 1 ∧
    List.intercalate [','] (Split P ',') = P ∧
    (∀ p ∈ Split P ',', ',' ∉ p) := by
  have _ := hc
  refine ⟨?_, ?_, Split_intercalate P ',', not_mem_of_mem_Split P ','⟩
  · have hseg : '.' ∉ c ++ ' ' :: P := by
      simp only [List.mem_append, List.mem_cons, not_or]
      exact ⟨hcd, by decide, hP⟩
    have hne : TrimSpace (c ++ ' ' :: P) ≠ [] := by
      rw [Ne, TrimSpace_eq_nil_iff]
      intro hall
      obtain ⟨ch, hch, hsp⟩ := hns
      have : isSpace ch = true := by
        apply hall
        simp only [List.mem_append, List.mem_cons] at hch ⊢
        tauto
      rw [hsp] at this
      exact Bool.false_ne_true this
    rw [tokenize_bang, tokenizeCommand_dot g _ hg, Split_of_not_mem _ '.' hseg]
    simp only [List.getD_cons_zero, hne, if_false, parseSegment_space c P hcs]
  · rw [List.length_map, Split_length]

/-- C1, witness: the message `"!g.c a,,b"`. -/
theorem tokenize_group_command_parameters_witness :
    tokenize "!g.c a,,b".toList =
      some { commandGroup := "g".toList, command := "c".toList,
             parameters := ["a".toList, [], "b".toList] } :=
  (tokenize_group_command_parameters "g".toList "c".toList "a,,b".toList
    (by decide) (by decide) (by decide) (by decide) (by decide)
    ⟨'c', by decide, by decide⟩).1

/-- C2: a message that does not begin with `!`, a message `"!" ++ r` where `r`
has no `.`, and a message `"!" ++ g ++ "." ++ t` where `g` has no `.` and `t`
is empty or white space only, are not commands: the tokenizing section returns
early, and every event of `messageCreate` on such a message is the `Pong!`
reply, the full help embed, the random-command reply or a log line; no group
handler is called and nothing a handler returned is sent. -/
theorem tokenize_not_a_command (content : Str)
    (h : HasPrefix content "!".toList = false ∨
      (∃ r, content = '!' :: r ∧ '.' ∉ r) ∨
      (∃ g t, content = '!' :: (g ++ '.' :: t) ∧ '.' ∉ g ∧ ∀ ch ∈ t, isSpace ch = true)) :
    tokenize content = none ∧
    ∀ (env : Env) (selfID channelID authorID : Str),
      ∀ e ∈ messageCreate env selfID
          { ChannelID := channelID, AuthorID := authorID, Content := content },
        e = Event.send channelID "Pong!".toList ∨ e = Event.sendEmbed channelID Embed.full ∨
        e = Event.send channelID (env.getRandomResult (content.drop 1)) ∨
        e = Event.logError := by
  have ht : tokenize content = none := by
    rcases h with h | ⟨r, rfl, hr⟩ | ⟨g, t, rfl, hg, ht⟩
    · unfold tokenize
      simp only [h, Bool.not_false, if_true]
    · rw [tokenize_bang, tokenizeCommand_no_dot r hr]
    · have htd : '.' ∉ t := fun hm => by
        have := ht '.' hm
        revert this
        decide
      rw [tokenize_bang, tokenizeCommand_dot g t hg, Split_of_not_mem t '.' htd]
      simp [(TrimSpace_eq_nil_iff t).2 ht]
  refine ⟨ht, ?_⟩
  intro env selfID channelID authorID
  exact messageCreate_of_tokenize_none env selfID
    { ChannelID := channelID, AuthorID := authorID, Content := content } ht

/-- C2, witness: the message `"!block. "`, whose command segment is a space. -/
theorem tokenize_not_a_command_witness :
    tokenize "!block. ".toList = none :=
  (tokenize_not_a_command "!block. ".toList
    (Or.inr (Or.inr ⟨"block".toList, " ".toList, by decide, by decide, by decide⟩))).1

theorem resolve_cmdFound_false (groups : List botCommandGroup) (g c : Str)
    (h : ∀ G ∈ groups, (G.name = g ∨ G.shorthand = g) →
      ∀ cmd ∈ G.commands, ¬ (c = cmd.command ∨ c = cmd.shorthand ∨ c = "help".toList)) :
    (resolve groups g c).cmdFound = false := by
  rw [← Bool.not_eq_true, resolve_cmdFound_iff]
  rintro ⟨G, hG, hm, cmd, hcmd, hc⟩
  exact h G hG hm cmd hcmd hc

/-- C3: for every registry and every tokenized invocation, if no registered
group has the group token as name or shorthand (whatever the command token),
or if the command token is not `help` and is neither the name nor the
shorthand of a command of a group the group token names, the lookup reports
not found and lines 131-178 of `messageCreate` produce no event at all: no
handler call, no reply. On a message with that invocation `messageCreate`
produces nothing beyond the events of the random-command block that runs
before the tokenizing section, hence nothing when the text is not a random
command. -/
theorem unknown_group_or_command_is_silent (env : Env) (channelID : Str) (inv : Invocation)
    (h : (∀ G ∈ env.allFlagGroups,
            G.name ≠ inv.commandGroup ∧ G.shorthand ≠ inv.commandGroup) ∨
         (inv.command ≠ "help".toList ∧
          ∀ G ∈ env.allFlagGroups,
            (G.name = inv.commandGroup ∨ G.shorthand = inv.commandGroup) →
            ∀ cmd ∈ G.commands, inv.command ≠ cmd.command ∧ inv.command ≠ cmd.shorthand)) :
    (resolve env.allFlagGroups inv.commandGroup inv.command).cmdFound = false ∧
    ((∀ G ∈ env.allFlagGroups,
        G.name ≠ inv.commandGroup ∧ G.shorthand ≠ inv.commandGroup) →
      (resolve env.allFlagGroups inv.commandGroup inv.command).cmdGroupFound = false) ∧
    runInvocation env channelID inv = [] ∧
    ∀ (selfID : Str) (m : Message), m.ChannelID = channelID → tokenize m.Content = some inv →
      (messageCreate env selfID m = [] ∨
        messageCreate env selfID m = (randomStage env channelID (m.Content.drop 1)).1) ∧
      (env.isRandomCommand (m.Content.drop 1) = false → messageCreate env selfID m = []) := by
  have hnf : (resolve env.allFlagGroups inv.commandGroup inv.command).cmdFound = false := by
    apply resolve_cmdFound_false
    rcases h with h | ⟨hh, h⟩
    · intro G hG hm
      exact absurd hm (by have := h G hG; tauto)
    · intro G hG hm cmd hcmd hc
      have := h G hG hm cmd hcmd
      tauto
  have hrun : runInvocation env channelID inv = [] :=
    runInvocation_of_not_found env channelID inv hnf
  refine ⟨hnf, ?_, hrun, ?_⟩
  · intro hg
    rw [← Bool.not_eq_true, resolve_cmdGroupFound_iff]
    rintro ⟨G, hG, hm⟩
    have := hg G hG
    tauto
  · intro selfID m hch htok
    have hm := messageCreate_of_tokenize_some env selfID m inv htok
    rw [hch, hrun, List.append_nil] at hm
    have hdisj : messageCreate env selfID m = [] ∨
        messageCreate env selfID m = (randomStage env channelID (m.Content.drop 1)).1 := by
      rw [hm]
      by_cases h1 : (!whitelistedChannel channelID) = true ∨ m.AuthorID = selfID
      · left; rw [if_pos h1]
      · right; rw [if_neg h1]; split <;> rfl
    refine ⟨hdisj, ?_⟩
    intro hr
    rcases hdisj with h1 | h1
    · exact h1
    · rw [h1]; unfold randomStage; rw [hr]; rfl

/-- C3, witness: the registry `exEnv` and the invocation of `"!block.unknown 1"`. -/
theorem unknown_group_or_command_is_silent_witness :
    runInvocation exEnv "476588476393848832".toList
      { commandGroup := "block".toList, command := "unknown".toList,
        parameters := ["1".toList] } = [] :=
  (unknown_group_or_command_is_silent exEnv "476588476393848832".toList
    { commandGroup := "block".toList, command := "unknown".toList,
      parameters := ["1".toList] }
    (Or.inr (by decide))).2.2.1

/-- C6, counterexample: in a registry whose only group `x` (shorthand `y`) has
no commands, the invocation `x.help` finds the group and does not find the
command: the comparison with `help` sits inside the loop over the commands. -/
theorem help_not_found_in_empty_group :
    resolve [{ name := "x".toList, shorthand := "y".toList, commands := [] }]
        "x".toList "help".toList =
      { cmdFound := false, cmdGroupFound := true,
        reqGroup := some { name := "x".toList, shorthand := "y".toList, commands := [] } } := by
  decide

/-- C6, amended: for every registry and every registered group with at least
one command (whether or not one of them is named `help`), an invocation whose
group token is the group's name or shorthand and whose command token is `help`
is resolved with `cmdGroupFound` and `cmdFound` both true. -/
theorem help_found_in_nonempty_group (groups : List botCommandGroup) (G : botCommandGroup)
    (g : Str) (hG : G ∈ groups) (hne : G.commands ≠ []) (hg : g = G.name ∨ g = G.shorthand) :
    (resolve groups g "help".toList).cmdGroupFound = true ∧
    (resolve groups g "help".toList).cmdFound = true := by
  have hm : G.name = g ∨ G.shorthand = g := by tauto
  constructor
  · exact (resolve_cmdGroupFound_iff groups g _).2 ⟨G, hG, hm⟩
  · obtain ⟨cmd, rest, hcmds⟩ := List.exists_cons_of_ne_nil hne
    exact (resolve_cmdFound_iff groups g _).2
      ⟨G, hG, hm, cmd, by simp [hcmds], Or.inr (Or.inr rfl)⟩

/-- C6, witness: group `block` of `exEnv`, addressed by its shorthand `b`. -/
theorem help_found_in_nonempty_group_witness :
    (resolve exEnv.allFlagGroups "b".toList "help".toList).cmdGroupFound = true ∧
    (resolve exEnv.allFlagGroups "b".toList "help".toList).cmdFound = true :=
  help_found_in_nonempty_group exEnv.allFlagGroups exBlock "b".toList
    (by decide) (by decide) (by decide)

/-- C7, counterexample: `"!b.g 1.5"` is split on both `.`; the command segment
is `"g 1"`, so the parameters are `["1"]`, not `["1.5"]`, and `"!b.g 1.5,2"`
gives `["1"]` as well, not `["1.5","2"]`. -/
theorem tokenize_second_dot_counterexample :
    tokenize "!b.g 1.5".toList =
      some { commandGroup := "b".toList, command := "g".toList, parameters := ["1".toList] } ∧
    tokenize "!b.g 1.5".toList ≠
      some { commandGroup := "b".toList, command := (parseSegment "g 1.5".toList).1,
             parameters := (parseSegment "g 1.5".toList).2 } ∧
    (parseSegment "g 1.5".toList).2 = ["1.5".toList] ∧
    tokenize "!b.g 1.5,2".toList =
      some { commandGroup := "b".toList, command := "g".toList, parameters := ["1".toList] } := by
  decide

/-- C7, amended: the text after the sentinel is split on every `.`: for every
message `"!" ++ g ++ "." ++ seg` with no `.` in `g` and in `seg`, the message
is not a command when `seg` is empty or white space only, and otherwise the
group token is `g` and the command token and the parameters are computed from
`seg`; and whatever follows a further `.` is ignored:
`"!" ++ g ++ "." ++ seg ++ "." ++ tail` is tokenized like
`"!" ++ g ++ "." ++ seg`. -/
theorem tokenize_reads_up_to_second_dot (g seg : Str) (hg : '.' ∉ g) (hs : '.' ∉ seg) :
    tokenize ('!' :: (g ++ '.' :: seg)) =
      (if TrimSpace seg = [] then none
       else some { commandGroup := g, command := (parseSegment seg).1,
                   parameters := (parseSegment seg).2 }) ∧
    ∀ tail : Str,
      tokenize ('!' :: (g ++ '.' :: (seg ++ '.' :: tail))) =
        tokenize ('!' :: (g ++ '.' :: seg)) := by
  have h1 : tokenize ('!' :: (g ++ '.' :: seg)) =
      (if TrimSpace seg = [] then none
       else some { commandGroup := g, command := (parseSegment seg).1,
                   parameters := (parseSegment seg).2 }) := by
    rw [tokenize_bang, tokenizeCommand_dot g seg hg, Split_of_not_mem seg '.' hs]
    rfl
  refine ⟨h1, ?_⟩
  intro tail
  rw [h1, tokenize_bang, tokenizeCommand_dot g _ hg, Split_append_sep seg tail '.' hs]
  rfl

/-- C7, witness: group `b`, segment `g 1`, tail `5`. -/
theorem tokenize_reads_up_to_second_dot_witness :
    tokenize ('!' :: ("b".toList ++ '.' :: ("g 1".toList ++ '.' :: "5".toList))) =
      tokenize ('!' :: ("b".toList ++ '.' :: "g 1".toList)) :=
  (tokenize_reads_up_to_second_dot "b".toList "g 1".toList (by decide) (by decide)).2 "5".toList

/-- C8, counterexample: a tab does not end the command token: `"!b.g\t12345"`
yields the command `"g\t12345"` and no parameters, not the command `g` with
the parameter `12345`. -/
theorem tokenize_tab_separator_counterexample :
    tokenize "!b.g\t12345".toList =
      some { commandGroup := "b".toList, command := "g\t12345".toList, parameters := [] } ∧
    tokenize "!b.g\t12345".toList ≠
      some { commandGroup := "b".toList, command := "g".toList,
             parameters := ["12345".toList] } := by
  decide

/-- C8, amended: within the command segment the first space character
(U+0020, no other white space) divides the command token from the
parameter-list token: for every segment `c ++ " " ++ P` with no space in `c`
the command token is `c` and the parameters are the trimmed comma-split pieces
of `P`; a segment `c` without a space is the command token as a whole, with an
empty parameter list, whatever other white space it holds. -/
theorem parseSegment_splits_at_first_space (c P : Str) (hc : ' ' ∉ c) :
    parseSegment (c ++ ' ' :: P) = (c, (Split P ',').map TrimSpace) ∧
    parseSegment c = (c, []) ∧
    ∀ g : Str, '.' ∉ g → '.' ∉ c → TrimSpace c ≠ [] →
      tokenize ('!' :: (g ++ '.' :: c)) =
        some { commandGroup := g, command := c, parameters := [] } := by
  refine ⟨parseSegment_space c P hc, parseSegment_no_space c hc, ?_⟩
  intro g hg hcd hne
  rw [tokenize_bang, tokenizeCommand_dot g c hg, Split_of_not_mem c '.' hcd]
  simp only [List.getD_cons_zero, hne, if_false, parseSegment_no_space c hc]

/-- C8, witness: the segment `"g 12345"`. -/
theorem parseSegment_splits_at_first_space_witness :
    parseSegment "g 12345".toList = ("g".toList, ["12345".toList]) :=
  (parseSegment_splits_at_first_space "g".toList "12345".toList (by decide)).1

/-- C5: in the whitelisted channel `476588476393848832`, where
`helpOkayChannel` is false, `!block.help` is not silent: the help gate is
skipped and the dispatch switch calls `getBlockCommandResult` with the command
`help`; without a parameter the call indexes an empty slice and panics, and
with the parameter `5` it queries the backend and its reply is sent. In a
channel where `helpOkayChannel` is true the same message gets the help embed
of the group. -/
theorem help_in_general_channel_calls_handler :
    whitelistedChannel "476588476393848832".toList = true ∧
    helpOkayChannel "476588476393848832".toList = false ∧
    messageCreate exEnv "bot".toList
        { ChannelID := "476588476393848832".toList, AuthorID := "user".toList,
          Content := "!block.help".toList } =
      [Event.callBlock "help".toList [], Event.logError, Event.panic] ∧
    messageCreate exEnv "bot".toList
        { ChannelID := "476588476393848832".toList, AuthorID := "user".toList,
          Content := "!b.help 5".toList } =
      [Event.callBlock "help".toList ["5".toList], Event.listBlocks 5,
        Event.send "476588476393848832".toList "No block found for slot %d".toList] ∧
    messageCreate exEnv "bot".toList
        { ChannelID := "691473296696410164".toList, AuthorID := "user".toList,
          Content := "!block.help".toList } =
      [Event.sendEmbed "691473296696410164".toList (Embed.specific (some exBlock))] := by
  decide

/-- C9: with the two parameters `["5","6"]` the arity check of
`getBlockCommandResult` only logs; the call goes on with `parameters[0]`,
requests slot 5 from the backend and, when the backend has no block for it,
returns a reply. An empty list does end in a panic and a first parameter that
is not a number in `os.Exit(1)`. -/
theorem getBlockCommandResult_two_parameters :
    (∀ (env : Env) (command : Str),
      (getBlockCommandResult env command ["5".toList, "6".toList]).1.take 2 =
        [Event.logError, Event.listBlocks 5]) ∧
    getBlockCommandResult exEnv "graffiti".toList ["5".toList, "6".toList] =
      ([Event.logError, Event.listBlocks 5],
        Outcome.ret "No block found for slot %d".toList) ∧
    (∀ (env : Env) (command : Str),
      getBlockCommandResult env command [] = ([Event.logError], Outcome.panic)) ∧
    (∀ (env : Env) (command : Str),
      getBlockCommandResult env command ["x".toList, "6".toList] =
        ([Event.logError, Event.logError], Outcome.exit 1)) := by
  have hx : Atoi "x".toList = none := by decide
  refine ⟨?_, by decide, fun _ _ => rfl, fun _ _ => by
    unfold getBlockCommandResult blockQuery
    simp only [hx]
    rfl⟩
  intro env command
  have hA : Atoi "5".toList = some 5 := by decide
  have hs : ((5 : Int) % (2 ^ 64 : Int)).toNat = 5 := by decide
  unfold getBlockCommandResult blockQuery
  simp only [hA, hs]
  cases env.ListBlocks 5 with
  | none => rfl
  | some containers =>
    cases containers with
    | nil => rfl
    | cons b bs => rfl

/-- C10, counterexample: in a registry whose block group and `graffiti` command
have the empty shorthand, the empty command token of `"!block. 5"` and the
empty group token of `"!.graffiti 5"` are matched by the empty shorthands: both
invocations are resolved as found and the block handler is called. -/
theorem empty_shorthand_matches_empty_token :
    tokenize "!block. 5".toList =
      some { commandGroup := "block".toList, command := [], parameters := ["5".toList] } ∧
    (resolve exNoAliasEnv.allFlagGroups "block".toList []).cmdFound = true ∧
    messageCreate exNoAliasEnv "bot".toList
        { ChannelID := "476588476393848832".toList, AuthorID := "user".toList,
          Content := "!block. 5".toList } =
      [Event.callBlock [] ["5".toList], Event.listBlocks 5,
        Event.send "476588476393848832".toList "No block found for slot %d".toList] ∧
    tokenize "!.graffiti 5".toList =
      some { commandGroup := [], command := "graffiti".toList, parameters := ["5".toList] } ∧
    (resolve exNoAliasEnv.allFlagGroups [] "graffiti".toList).cmdGroupFound = true ∧
    (resolve exNoAliasEnv.allFlagGroups [] "graffiti".toList).cmdFound = true ∧
    messageCreate exNoAliasEnv "bot".toList
        { ChannelID := "476588476393848832".toList, AuthorID := "user".toList,
          Content := "!.graffiti 5".toList } =
      [Event.callBlock "graffiti".toList ["5".toList], Event.listBlocks 5,
        Event.send "476588476393848832".toList "No block found for slot %d".toList] := by
  decide

/-- C10, amended: names and shorthands are compared by plain string equality,
so a group with the empty shorthand is matched by the empty group token. When
no registered group has an empty name or shorthand, an invocation whose group
token is empty finds no group; when no command of the groups the group token
names has an empty name or shorthand, an invocation whose command token is
empty finds no command; in both cases lines 131-178 of `messageCreate`
produce no event. -/
theorem empty_token_is_silent (env : Env) (channelID : Str) (inv : Invocation)
    (h : (inv.commandGroup = [] ∧
            ∀ G ∈ env.allFlagGroups, G.name ≠ [] ∧ G.shorthand ≠ []) ∨
         (inv.command = [] ∧
            ∀ G ∈ env.allFlagGroups,
              (G.name = inv.commandGroup ∨ G.shorthand = inv.commandGroup) →
              ∀ cmd ∈ G.commands, cmd.command ≠ [] ∧ cmd.shorthand ≠ [])) :
    (resolve env.allFlagGroups inv.commandGroup inv.command).cmdFound = false ∧
    (inv.commandGroup = [] → (∀ G ∈ env.allFlagGroups, G.name ≠ [] ∧ G.shorthand ≠ []) →
      (resolve env.allFlagGroups inv.commandGroup inv.command).cmdGroupFound = false) ∧
    runInvocation env channelID inv = [] ∧
    (∀ G ∈ env.allFlagGroups, G.shorthand = [] →
      ∀ c : Str, (resolve env.allFlagGroups [] c).cmdGroupFound = true) := by
  have hnf : (resolve env.allFlagGroups inv.commandGroup inv.command).cmdFound = false := by
    apply resolve_cmdFound_false
    rcases h with ⟨hg, h⟩ | ⟨hc, h⟩
    · intro G hG hm
      have := h G hG
      rw [hg] at hm
      tauto
    · intro G hG hm cmd hcmd hcm
      have := h G hG hm cmd hcmd
      rw [hc] at hcm
      rcases hcm with h1 | h1 | h1
      · exact this.1 h1.symm
      · exact this.2 h1.symm
      · revert h1; decide
  refine ⟨hnf, ?_, runInvocation_of_not_found env channelID inv hnf, ?_⟩
  · intro hg hall
    rw [← Bool.not_eq_true, resolve_cmdGroupFound_iff]
    rintro ⟨G, hG, hm⟩
    have := hall G hG
    rw [hg] at hm
    tauto
  · intro G hG hs c
    exact (resolve_cmdGroupFound_iff _ _ _).2 ⟨G, hG, Or.inr hs⟩

/-- C10, witness: the registry `exEnv`, where every name and shorthand is
non-empty, and the invocation of `"!block. 5"`. -/
theorem empty_token_is_silent_witness :
    runInvocation exEnv "476588476393848832".toList
      { commandGroup := "block".toList, command := [], parameters := ["5".toList] } = [] :=
  (empty_token_is_silent exEnv "476588476393848832".toList
    { commandGroup := "block".toList, command := [], parameters := ["5".toList] }
    (Or.inr (by decide))).2.2.1

theorem group_tokens_iff (G D : botCommandGroup) (h : sharesGroupId G D → G = D) :
    (G.shorthand = D.name ∨ G.shorthand = D.shorthand) ↔
      (G.name = D.name ∨ G.name = D.shorthand) := by
  constructor
  · intro hm
    have hs : sharesGroupId G D := by unfold sharesGroupId; tauto
    have := h hs
    subst this
    exact Or.inl rfl
  · intro hm
    have hs : sharesGroupId G D := by unfold sharesGroupId; tauto
    have := h hs
    subst this
    exact Or.inr rfl

theorem command_tokens_iff (C D : botCommand) (h : sharesCommandId C D → C = D) :
    (C.shorthand = D.command ∨ C.shorthand = D.shorthand) ↔
      (C.command = D.command ∨ C.command = D.shorthand) := by
  constructor
  · intro hm
    have hs : sharesCommandId C D := by unfold sharesCommandId; tauto
    have := h hs
    subst this
    exact Or.inl rfl
  · intro hm
    have hs : sharesCommandId C D := by unfold sharesCommandId; tauto
    have := h hs
    subst this
    exact Or.inr rfl

/-- C4, counterexample: in a registry whose block group (alias `b`) holds
`graffiti` and `proposer`, both without alias, over a backend that has a block:
`getBlockCommandResult` answers the shorthand of `blockProposer` (the empty
string) with the graffiti reply and its name with the proposer reply, and the
message `"!b. 12345"` (both shorthands) is answered with the graffiti reply
where `"!block.proposer 12345"` (both names) is answered with the proposer
reply. -/
theorem alias_round_trip_counterexample :
    exBlockTwoNoAlias ∈ exTwoNoAliasEnv.allFlagGroups ∧
    exProposerNoAlias ∈ exBlockTwoNoAlias.commands ∧
    getBlockCommandResult exTwoNoAliasEnv exTwoNoAliasEnv.blockProposer.shorthand
        ["12345".toList] =
      ([Event.listBlocks 12345, Event.print exBeaconBlock.Graffiti],
        Outcome.ret "Graffiti for block %d is %s".toList) ∧
    getBlockCommandResult exTwoNoAliasEnv exTwoNoAliasEnv.blockProposer.command
        ["12345".toList] =
      ([Event.listBlocks 12345], Outcome.ret "Proposer of block %d is %d".toList) ∧
    messageCreate exTwoNoAliasEnv "bot".toList
        { ChannelID := "691473296696410164".toList, AuthorID := "user".toList,
          Content := "!b. 12345".toList } =
      [Event.callBlock [] ["12345".toList], Event.listBlocks 12345,
        Event.print exBeaconBlock.Graffiti,
        Event.send "691473296696410164".toList "Graffiti for block %d is %s".toList] ∧
    messageCreate exTwoNoAliasEnv "bot".toList
        { ChannelID := "691473296696410164".toList, AuthorID := "user".toList,
          Content := "!block.proposer 12345".toList } =
      [Event.callBlock "proposer".toList ["12345".toList], Event.listBlocks 12345,
        Event.send "691473296696410164".toList "Proposer of block %d is %d".toList] := by
  decide

/-- C4, amended: for every registry, every registered group `G`, every command
`C` of it, every parameter list and every backend, the invocation with both
shorthands and the invocation with both canonical names are resolved as found,
and `getBlockCommandResult` gives the same events and result for the shorthand
of `blockGraffiti` as for its name; it does so for `blockProposer` when
`blockProposer` shares neither name nor shorthand with `blockGraffiti`. When
`G` shares its name or shorthand with no other group of the dispatch switch,
both invocations select the same case of the switch; when moreover neither
token of `C` is `help` and the selected case is the default, or the block
handler with `C` sharing its name or shorthand with no other of the two block
commands, the two runs of lines 131-178 agree on every event but the marker of
the handler call: same backend requests, same reply, same ending. Names and
shorthands are compared by plain string equality, the empty one included. -/
theorem alias_round_trip (env : Env) (channelID : Str) (G : botCommandGroup)
    (C : botCommand) (ps : List Str) (hG : G ∈ env.allFlagGroups) (hC : C ∈ G.commands) :
    ((resolve env.allFlagGroups G.shorthand C.shorthand).cmdGroupFound = true ∧
      (resolve env.allFlagGroups G.shorthand C.shorthand).cmdFound = true ∧
      (resolve env.allFlagGroups G.name C.command).cmdGroupFound = true ∧
      (resolve env.allFlagGroups G.name C.command).cmdFound = true) ∧
    getBlockCommandResult env env.blockGraffiti.shorthand ps =
      getBlockCommandResult env env.blockGraffiti.command ps ∧
    (¬ sharesCommandId env.blockProposer env.blockGraffiti →
      getBlockCommandResult env env.blockProposer.shorthand ps =
        getBlockCommandResult env env.blockProposer.command ps) ∧
    ((∀ D ∈ [env.currentCommandGroup, env.stateCommandGroup, env.valCommandGroup,
          env.blockCommandGroup], sharesGroupId G D → G = D) →
      selectHandler env G.shorthand = selectHandler env G.name ∧
      (C.command ≠ "help".toList ∧ C.shorthand ≠ "help".toList →
        (selectHandler env G.name = Handler.default ∨
          (selectHandler env G.name = Handler.block ∧
            ∀ D ∈ [env.blockGraffiti, env.blockProposer], sharesCommandId C D → C = D)) →
        withoutCalls (runInvocation env channelID
            { commandGroup := G.shorthand, command := C.shorthand, parameters := ps }) =
          withoutCalls (runInvocation env channelID
            { commandGroup := G.name, command := C.command, parameters := ps }))) := by
  have hfound : (resolve env.allFlagGroups G.shorthand C.shorthand).cmdGroupFound = true ∧
      (resolve env.allFlagGroups G.shorthand C.shorthand).cmdFound = true ∧
      (resolve env.allFlagGroups G.name C.command).cmdGroupFound = true ∧
      (resolve env.allFlagGroups G.name C.command).cmdFound = true :=
    ⟨(resolve_cmdGroupFound_iff _ _ _).2 ⟨G, hG, Or.inr rfl⟩,
      (resolve_cmdFound_iff _ _ _).2 ⟨G, hG, Or.inr rfl, C, hC, Or.inr (Or.inl rfl)⟩,
      (resolve_cmdGroupFound_iff _ _ _).2 ⟨G, hG, Or.inl rfl⟩,
      (resolve_cmdFound_iff _ _ _).2 ⟨G, hG, Or.inl rfl, C, hC, Or.inl rfl⟩⟩
  have hgraf : getBlockCommandResult env env.blockGraffiti.shorthand ps =
      getBlockCommandResult env env.blockGraffiti.command ps :=
    getBlockCommandResult_congr env _ _ ps
      ⟨fun _ => Or.inl rfl, fun _ => Or.inr rfl⟩ (fun hn => absurd (Or.inl rfl) hn)
  refine ⟨hfound, hgraf, ?_, ?_⟩
  · intro hns
    exact getBlockCommandResult_congr env _ _ ps
      (command_tokens_iff _ _ (fun hs => absurd hs hns))
      (fun _ => ⟨fun _ => Or.inl rfl, fun _ => Or.inr rfl⟩)
  intro hgroups
  have hsel : selectHandler env G.shorthand = selectHandler env G.name :=
    selectHandler_congr env G.shorthand G.name
      (group_tokens_iff G _ (hgroups _ (by simp)))
      (group_tokens_iff G _ (hgroups _ (by simp)))
      (group_tokens_iff G _ (hgroups _ (by simp)))
      (group_tokens_iff G _ (hgroups _ (by simp)))
  refine ⟨hsel, ?_⟩
  intro hno hcase
  rw [runInvocation_of_found env channelID _ hfound.1 hfound.2.1 hno.2,
    runInvocation_of_found env channelID _ hfound.2.2.1 hfound.2.2.2 hno.1]
  rcases hcase with hh | ⟨hh, hcmds⟩
  · apply withoutCalls_dispatch_congr
    · unfold callHandler; dsimp only; rw [hsel, hh]
    · unfold callHandler; dsimp only; rw [hsel, hh]
  · have hres : getBlockCommandResult env C.shorthand ps =
        getBlockCommandResult env C.command ps :=
      getBlockCommandResult_congr env _ _ ps
        (command_tokens_iff C _ (hcmds _ (by simp)))
        (fun _ => command_tokens_iff C _ (hcmds _ (by simp)))
    apply withoutCalls_dispatch_congr
    · unfold callHandler; dsimp only; rw [hsel, hh]; dsimp only; rw [hres]; rfl
    · unfold callHandler; dsimp only; rw [hsel, hh]; dsimp only; rw [hres]

/-- C4, witness: group `block` (alias `b`) and command `proposer` (alias `p`)
of `exBackendEnv`, whose backend has a block, with the parameter `12345`: both
tokens of `proposer` get the proposer reply, which the tokens of `graffiti` do
not get, and the runs of `b.p` and `block.proposer` agree. -/
theorem alias_round_trip_witness :
    (getBlockCommandResult exBackendEnv "p".toList ["12345".toList] =
        getBlockCommandResult exBackendEnv "proposer".toList ["12345".toList] ∧
      getBlockCommandResult exBackendEnv "proposer".toList ["12345".toList] =
        ([Event.listBlocks 12345], Outcome.ret "Proposer of block %d is %d".toList) ∧
      getBlockCommandResult exBackendEnv "g".toList ["12345".toList] =
        ([Event.listBlocks 12345, Event.print exBeaconBlock.Graffiti],
          Outcome.ret "Graffiti for block %d is %s".toList)) ∧
    selectHandler exBackendEnv "b".toList = selectHandler exBackendEnv "block".toList ∧
    withoutCalls (runInvocation exBackendEnv "691473296696410164".toList
        { commandGroup := "b".toList, command := "p".toList,
          parameters := ["12345".toList] }) =
      withoutCalls (runInvocation exBackendEnv "691473296696410164".toList
        { commandGroup := "block".toList, command := "proposer".toList,
          parameters := ["12345".toList] }) ∧
    withoutCalls (runInvocation exBackendEnv "691473296696410164".toList
        { commandGroup := "block".toList, command := "proposer".toList,
          parameters := ["12345".toList] }) =
      [Event.listBlocks 12345,
        Event.send "691473296696410164".toList "Proposer of block %d is %d".toList] :=
  have h := alias_round_trip exBackendEnv "691473296696410164".toList
    exBlock exProposer ["12345".toList] (by decide) (by decide)
  have hg := h.2.2.2 (by decide)
  ⟨⟨h.2.2.1 (by decide), by decide, by decide⟩, hg.1,
    hg.2 (by decide) (Or.inr ⟨by decide, by decide⟩), by decide⟩

end Prysmbot
